import Mathlib

/-!
Verification of the AetherOS voice-agent audio pipeline.

Shallow embedding of:
* `wakeword-detector/src/audio_buffer.rs` (`AudioBuffer`: ring buffer of i16
  samples; front of the list is the oldest sample, the consumer side);
* `wakeword-detector/src/vad.rs` (`VoiceActivityDetector` state machine);
* `stt-processor/src/audio_preprocessor.rs` (`AudioPreprocessor`: peak
  normalization and i16/f32 sample conversion, f32 arithmetic modelled by
  exact rationals);
* `stt-processor/src/streaming.rs` (`StreamingSTT::process_chunk`);
* `wakeword-detector/src/detector.rs` (`WakeWordDetector::process_audio`).
-/

namespace AudioBuffer

/-- State of `AudioBuffer`: the queue of samples currently in the ring,
oldest first (the consumer pops from the front, the producer pushes at the
back).  The capacity is passed separately. -/
abbrev Buf := List Int

/-- `AudioBuffer::write` (audio_buffer.rs lines 71-95).  `vacant` is
`producer.vacant_len()`; when `samples.len() > vacant` the consumer skips
`to_write - vacant` items (`Consumer::skip` removes at most the occupied
count); then `push_slice` appends items from the front of `samples` until
the ring is full and returns how many it appended.  Returns the new buffer
contents and the value `write` returns. -/
def write (cap : Nat) (b : Buf) (samples : List Int) : Buf × Nat :=
  let vacant := cap - b.length
  let b1 := if vacant < samples.length
    then b.drop (min (samples.length - vacant) b.length)
    else b
  let pushed := min (cap - b1.length) samples.length
  (b1 ++ samples.take pushed, pushed)

/-- `AudioBuffer::peek` (lines 98-111): copies `min count occupied` oldest
samples without removing them. -/
def peek (b : Buf) (count : Nat) : List Int :=
  b.take (min count b.length)

/-- The `AudioBufferError` cases that `read` can produce. -/
inductive BufferError where
  | underflow (requested : Nat) (available : Nat)
deriving DecidableEq, Repr

/-- `AudioBuffer::read` (lines 114-128): fails with `Underflow(count,
available)` when `count > occupied`, otherwise pops the `count` oldest
samples.  Returns the result together with the buffer afterwards. -/
def read (b : Buf) (count : Nat) : Except BufferError (List Int) × Buf :=
  if b.length < count then (.error (.underflow count b.length), b)
  else (.ok (b.take count), b.drop count)

/-- `AudioBuffer::len` (lines 131-134): `consumer.occupied_len()`. -/
def lenB (b : Buf) : Nat := b.length

/-- `AudioBuffer::free_space` (lines 148-151): `producer.vacant_len()`,
i.e. capacity minus occupied. -/
def free_space (cap : Nat) (b : Buf) : Nat := cap - b.length

/-- `AudioBuffer::clear` (lines 154-159): skip everything occupied. -/
def clear (b : Buf) : Buf := b.drop b.length

/-- The public mutating/observing operations used to generate reachable
buffer states. -/
inductive Op where
  | write (samples : List Int)
  | read (count : Nat)
  | peek (count : Nat)
  | clear

/-- One operation applied to the buffer state (peek leaves it unchanged,
a failed read leaves it unchanged). -/
def step (cap : Nat) (b : Buf) : Op → Buf
  | .write s => (write cap b s).1
  | .read n => (read b n).2
  | .peek _ => b
  | .clear => clear b

/-- Run a sequence of operations from the empty buffer
(`AudioBuffer::with_capacity` starts empty). -/
def run (cap : Nat) (ops : List Op) : Buf :=
  ops.foldl (step cap) []

theorem write_length_le (cap : Nat) (b : Buf) (s : List Int)
    (hb : b.length ≤ cap) : ((write cap b s).1).length ≤ cap := by
  unfold write
  by_cases h : cap - b.length < s.length
  · simp only [h, if_pos, List.length_append, List.length_take, List.length_drop]
    omega
  · simp only [h, if_neg, not_false_iff, List.length_append, List.length_take,
      List.length_drop]
    omega

theorem step_length_le (cap : Nat) (b : Buf) (op : Op)
    (hb : b.length ≤ cap) : (step cap b op).length ≤ cap := by
  cases op with
  | write s => exact write_length_le cap b s hb
  | read n =>
      unfold step read
      by_cases h : b.length < n
      · simpa [h]
      · simp only [h, if_neg, not_false_iff]
        simpa using le_trans (Nat.sub_le _ _) hb
  | peek n => exact hb
  | clear => simp [step, clear]

theorem run_length_le (cap : Nat) (ops : List Op) :
    (run cap ops).length ≤ cap := by
  suffices h : ∀ b : Buf, b.length ≤ cap → (ops.foldl (step cap) b).length ≤ cap by
    exact h [] (by simp)
  induction ops with
  | nil => intro b hb; simpa using hb
  | cons op rest ih =>
      intro b hb
      exact ih (step cap b op) (step_length_le cap b op hb)

end AudioBuffer

namespace Vad

/-- `VadState` (vad.rs lines 76-89). -/
inductive VadState where
  | silence
  | maybeSpeech
  | speech
  | maybeSilence
deriving DecidableEq, Repr

/-- Mutable part of `VoiceActivityDetector` (vad.rs lines 92-97): the state
machine state and the two consecutive-frame counters.  The configuration
thresholds `speech_frames_required` / `silence_frames_required` are passed
to the transition function. -/
structure Detector where
  state : VadState
  speech_frame_count : Nat
  silence_frame_count : Nat
deriving DecidableEq, Repr

/-- Initial detector (vad.rs `with_config`, lines 106-115). -/
def Detector.init : Detector := ⟨.silence, 0, 0⟩

/-- `VoiceActivityDetector::update_state` (vad.rs lines 176-226), with the
config fields `speech_frames_required` (`sreq`) and
`silence_frames_required` (`silreq`) as parameters. -/
def update_state (sreq silreq : Nat) (d : Detector) (is_speech_frame : Bool) :
    Detector :=
  match d.state with
  | .silence =>
      if is_speech_frame then ⟨.maybeSpeech, 1, 0⟩ else d
  | .maybeSpeech =>
      if is_speech_frame then
        let c := d.speech_frame_count + 1
        if sreq ≤ c then ⟨.speech, c, d.silence_frame_count⟩
        else ⟨.maybeSpeech, c, d.silence_frame_count⟩
      else ⟨.silence, 0, d.silence_frame_count⟩
  | .speech =>
      if is_speech_frame then ⟨.speech, d.speech_frame_count, 0⟩
      else ⟨.maybeSilence, 0, 1⟩
  | .maybeSilence =>
      if is_speech_frame then ⟨.speech, d.speech_frame_count, 0⟩
      else
        let c := d.silence_frame_count + 1
        if silreq ≤ c then ⟨.silence, d.speech_frame_count, c⟩
        else ⟨.maybeSilence, d.speech_frame_count, c⟩

/-- Run `update_state` over a sequence of per-frame speech classifications
(the boolean `is_speech_frame` computed by `process_frame` for each frame). -/
def runFrames (sreq silreq : Nat) (d : Detector) (frames : List Bool) :
    Detector :=
  frames.foldl (update_state sreq silreq) d

/-- `is_speech_active` (vad.rs lines 229-231). -/
def is_speech_active (d : Detector) : Bool :=
  d.state = .speech || d.state = .maybeSilence

theorem runFrames_speech_state (sreq silreq : Nat) (n : Nat) :
    ∀ a b : Nat,
      (runFrames sreq silreq ⟨.speech, a, b⟩
        (List.replicate n true)).state = .speech := by
  induction n with
  | zero => intro a b; rfl
  | succ k ih =>
      intro a b
      have step : update_state sreq silreq ⟨.speech, a, b⟩ true =
          ⟨.speech, a, 0⟩ := by
        simp [update_state]
      have : runFrames sreq silreq ⟨.speech, a, b⟩
          (List.replicate (k + 1) true) =
          runFrames sreq silreq ⟨.speech, a, 0⟩ (List.replicate k true) := by
        simp [runFrames, List.replicate_succ, step]
      rw [this]
      exact ih a 0

theorem runFrames_silence_stays (sreq silreq : Nat) (n : Nat) (a b : Nat) :
    runFrames sreq silreq ⟨.silence, a, b⟩ (List.replicate n false) =
      ⟨.silence, a, b⟩ := by
  induction n with
  | zero => rfl
  | succ k ih =>
      simpa [runFrames, List.replicate_succ, update_state] using ih

theorem runFrames_maybeSpeech_reaches (sreq silreq : Nat) :
    ∀ (m k b : Nat), 1 ≤ m → sreq ≤ k + m →
      (runFrames sreq silreq ⟨.maybeSpeech, k, b⟩
        (List.replicate m true)).state = .speech := by
  intro m
  induction m with
  | zero => intro k b h; omega
  | succ j ih =>
      intro k b _ hreq
      by_cases hc : sreq ≤ k + 1
      · have h1 : update_state sreq silreq ⟨.maybeSpeech, k, b⟩ true =
            ⟨.speech, k + 1, b⟩ := by
          simp [update_state, hc]
        have step : runFrames sreq silreq ⟨.maybeSpeech, k, b⟩
            (List.replicate (j + 1) true) =
            runFrames sreq silreq ⟨.speech, k + 1, b⟩
              (List.replicate j true) := by
          simp [runFrames, List.replicate_succ, h1]
        rw [step]
        exact runFrames_speech_state sreq silreq j (k + 1) b
      · have h1 : update_state sreq silreq ⟨.maybeSpeech, k, b⟩ true =
            ⟨.maybeSpeech, k + 1, b⟩ := by
          simp [update_state, hc]
        have step : runFrames sreq silreq ⟨.maybeSpeech, k, b⟩
            (List.replicate (j + 1) true) =
            runFrames sreq silreq ⟨.maybeSpeech, k + 1, b⟩
              (List.replicate j true) := by
          simp [runFrames, List.replicate_succ, h1]
        rw [step]
        have hj : 1 ≤ j := by omega
        exact ih (k + 1) b hj (by omega)

theorem runFrames_maybeSilence_reaches (sreq silreq : Nat) :
    ∀ (m k b : Nat), 1 ≤ m → silreq ≤ k + m →
      (runFrames sreq silreq ⟨.maybeSilence, b, k⟩
        (List.replicate m false)).state = .silence := by
  intro m
  induction m with
  | zero => intro k b h; omega
  | succ j ih =>
      intro k b _ hreq
      by_cases hc : silreq ≤ k + 1
      · have h1 : update_state sreq silreq ⟨.maybeSilence, b, k⟩ false =
            ⟨.silence, b, k + 1⟩ := by
          simp [update_state, hc]
        have step : runFrames sreq silreq ⟨.maybeSilence, b, k⟩
            (List.replicate (j + 1) false) =
            runFrames sreq silreq ⟨.silence, b, k + 1⟩
              (List.replicate j false) := by
          simp [runFrames, List.replicate_succ, h1]
        rw [step, runFrames_silence_stays]
      · have h1 : update_state sreq silreq ⟨.maybeSilence, b, k⟩ false =
            ⟨.maybeSilence, b, k + 1⟩ := by
          simp [update_state, hc]
        have step : runFrames sreq silreq ⟨.maybeSilence, b, k⟩
            (List.replicate (j + 1) false) =
            runFrames sreq silreq ⟨.maybeSilence, b, k + 1⟩
              (List.replicate j false) := by
          simp [runFrames, List.replicate_succ, h1]
        rw [step]
        have hj : 1 ≤ j := by omega
        exact ih (k + 1) b hj (by omega)

end Vad

namespace AudioPreprocessor

/-!
`stt-processor/src/audio_preprocessor.rs`.  The f32 sample arithmetic is
modelled by exact rational arithmetic (`ℚ`); every i16 value and the
constants 0.95, 1.0, `i16::MAX = 32767` are exactly representable in f32,
and each claim settled here is insensitive to f32 rounding at the inputs
used.
-/

/-- Peak amplitude: `samples.iter().map(|&s| s.abs()).fold(0.0f32, f32::max)`
(audio_preprocessor.rs lines 189-192). -/
def peakOf (samples : List ℚ) : ℚ :=
  samples.foldl (fun acc s => max acc |s|) 0

/-- `AudioPreprocessor::normalize` (lines 187-208): silent input is returned
unchanged; a peak above 1.0 is scaled to `0.95` (`scale = 0.95 / peak`);
a peak in (0, 1] is returned unchanged. -/
def normalize (samples : List ℚ) : List ℚ :=
  let peak := peakOf samples
  if peak = 0 then samples
  else if 1 < peak then samples.map (fun s => s * ((19/20) / peak))
  else samples

/-- `AudioPreprocessor::stereo_to_mono` (lines 131-140):
`chunks_exact(2)` averaging, a trailing odd sample is dropped. -/
def stereo_to_mono : List ℚ → List ℚ
  | a :: b :: rest => ((a + b) / 2) :: stereo_to_mono rest
  | _ => []

/-- `PreprocessorError` cases reachable from `process` in this model. -/
inductive PError where
  | emptyBuffer
deriving DecidableEq, Repr

/-- `AudioPreprocessor::process` (lines 97-128), parameterized by the input
format fields `channels` and `sample_rate` and by the resampler.  The
`rubato` sinc resampler (lines 143-182) is a windowed-sinc DSP kernel and is
abstracted as the function argument `resample`; for the 16 kHz inputs of the
claims below that branch is not taken. -/
def process (channels : Nat) (sample_rate : Nat) (resample : List ℚ → List ℚ)
    (samples : List ℚ) : Except PError (List ℚ) :=
  if samples = [] then .error .emptyBuffer
  else
    let mono := if channels = 2 then stereo_to_mono samples else samples
    let resampled := if sample_rate ≠ 16000 then resample mono else mono
    .ok (normalize resampled)

/-- `s.clamp(lo, hi)` on f32 (Rust `f32::clamp`). -/
def clampQ (s lo hi : ℚ) : ℚ :=
  if s < lo then lo else if hi < s then hi else s

/-- Truncation toward zero, the rounding of Rust's float-to-integer
`as` cast. -/
def truncQ (q : ℚ) : ℤ :=
  if 0 ≤ q then ⌊q⌋ else ⌈q⌉

/-- Per-sample body of `AudioPreprocessor::i16_to_f32` (lines 211-216):
`s as f32 / i16::MAX as f32`.  There is no clamping here. -/
def i16_to_f32_sample (s : ℤ) : ℚ := (s : ℚ) / 32767

/-- `AudioPreprocessor::i16_to_f32` maps the per-sample conversion over the
slice. -/
def i16_to_f32 (samples : List ℤ) : List ℚ :=
  samples.map i16_to_f32_sample

/-- Per-sample body of `AudioPreprocessor::f32_to_i16` (lines 219-227):
`let clamped = s.clamp(-1.0, 1.0); (clamped * i16::MAX as f32) as i16`.
The final `as i16` cast saturates to `[-32768, 32767]`; the clamped product
already lies in `[-32767, 32767]`. -/
def f32_to_i16_sample (s : ℚ) : ℤ :=
  let clamped := clampQ s (-1) 1
  max (-32768) (min 32767 (truncQ (clamped * 32767)))

/-- `AudioPreprocessor::f32_to_i16` maps the per-sample conversion over the
slice. -/
def f32_to_i16 (samples : List ℚ) : List ℤ :=
  samples.map f32_to_i16_sample

theorem peakOf_cons (x : ℚ) (l : List ℚ) :
    peakOf (x :: l) = max |x| (peakOf l) := by
  have gen : ∀ (l : List ℚ) (a c : ℚ),
      l.foldl (fun acc s => max acc |s|) (max a c) =
        max a (l.foldl (fun acc s => max acc |s|) c) := by
    intro l
    induction l with
    | nil => intro a c; rfl
    | cons y ys ih =>
        intro a c
        simp only [List.foldl_cons]
        rw [max_assoc, ih]
  have h0 : peakOf (x :: l) = l.foldl (fun acc s => max acc |s|) (max 0 |x|) := by
    simp [peakOf]
  rw [h0, max_comm 0 |x|, gen]
  simp [peakOf, max_comm]

theorem peakOf_nonneg (l : List ℚ) : 0 ≤ peakOf l := by
  induction l with
  | nil => simp [peakOf]
  | cons x xs ih =>
      rw [peakOf_cons]
      exact le_trans ih (le_max_right _ _)

theorem abs_le_peakOf (l : List ℚ) (s : ℚ) (hs : s ∈ l) : |s| ≤ peakOf l := by
  induction l with
  | nil => cases hs
  | cons x xs ih =>
      rw [peakOf_cons]
      rcases List.mem_cons.mp hs with h | h
      · subst h; exact le_max_left _ _
      · exact le_trans (ih h) (le_max_right _ _)

theorem peakOf_le (l : List ℚ) (c : ℚ) (hc : 0 ≤ c)
    (h : ∀ s ∈ l, |s| ≤ c) : peakOf l ≤ c := by
  induction l with
  | nil => simpa [peakOf]
  | cons x xs ih =>
      rw [peakOf_cons]
      refine max_le (h x (by simp)) (ih ?_)
      intro s hs
      exact h s (List.mem_cons_of_mem _ hs)

theorem normalize_of_peak_le_one (l : List ℚ) (h : peakOf l ≤ 1) :
    normalize l = l := by
  unfold normalize
  by_cases h0 : peakOf l = 0
  · simp [h0]
  · have : ¬ (1 : ℚ) < peakOf l := not_lt.mpr h
    simp [h0, this]

theorem peakOf_replicate (n : Nat) (x : ℚ) (hn : n ≠ 0) :
    peakOf (List.replicate n x) = |x| := by
  induction n with
  | zero => omega
  | succ k ih =>
      rw [List.replicate_succ, peakOf_cons]
      rcases Nat.eq_zero_or_pos k with hk | hk
      · subst hk
        simp [peakOf, abs_nonneg]
      · rw [ih (by omega)]
        simp

theorem normalize_peak_of_loud (l : List ℚ) (h1 : 1 < peakOf l) :
    peakOf (normalize l) ≤ 19/20 := by
  unfold normalize
  have h0 : peakOf l ≠ 0 := by
    intro h; rw [h] at h1; norm_num at h1
  simp only [h0, h1, if_neg, if_pos, not_false_iff]
  have hpos : 0 < peakOf l := lt_trans one_pos h1
  refine peakOf_le _ (19/20) (by norm_num) ?_
  intro s hs
  rcases List.mem_map.mp hs with ⟨t, ht, rfl⟩
  have hts : |t| ≤ peakOf l := abs_le_peakOf l t ht
  have hc : (0 : ℚ) ≤ (19/20) / peakOf l := by positivity
  have habs : |t * ((19/20) / peakOf l)| = |t| * ((19/20) / peakOf l) := by
    rw [abs_mul, abs_of_nonneg hc]
  rw [habs]
  calc |t| * ((19/20) / peakOf l)
      ≤ peakOf l * ((19/20) / peakOf l) := mul_le_mul_of_nonneg_right hts hc
    _ = 19/20 := by field_simp; ring

theorem normalize_peak_le_one (l : List ℚ) : peakOf (normalize l) ≤ 1 := by
  by_cases h1 : 1 < peakOf l
  · exact le_trans (normalize_peak_of_loud l h1) (by norm_num)
  · rw [normalize_of_peak_le_one l (not_lt.mp h1)]
    exact not_lt.mp h1

end AudioPreprocessor

namespace Streaming

/-!
`stt-processor/src/streaming.rs`.  The preprocessor inside `StreamingSTT`
is instantiated below at the mono 16 kHz input format, for which
`AudioPreprocessor::process` performs only the normalization step (the
stereo and resampling branches are not taken); the `audio.is_empty()` guard
in `process_chunk` runs before `process`, so the `EmptyBuffer` error is
unreachable.  The Whisper transcriber is abstracted as a function `asr`
from the chunk to the `(text, confidence)` of its `TranscriptionResult`.
-/

/-- `StreamingConfig` (streaming.rs lines 72-91). -/
structure Config where
  chunk_duration_ms : Nat
  overlap_ms : Nat
  max_buffer_duration_secs : Nat
  min_confidence_for_partials : ℚ
  enablePartialResults : Bool
  max_queue_size : Nat

/-- `StreamingConfig::default()` (lines 93-104). -/
def Config.default : Config :=
  ⟨500, 50, 30, 1/2, true, 100⟩

/-- `StreamingEvent` (lines 44-69). -/
inductive SEvent where
  | Partial (text : String) (confidence : ℚ) (timestamp_ms : Nat)
  | Final (text : String) (confidence : ℚ) (start_ms : Nat) (end_ms : Nat)
  | EndOfSpeech
  | ErrorEv (message : String)
deriving DecidableEq, Repr

/-- `StreamingState` (lines 106-113): the queued preprocessed samples
(front = oldest), plus counters and flags. -/
structure SState where
  audio_buffer : List ℚ
  last_transcription : String
  total_samples_processed : Nat
  chunks_processed : Nat
  is_active : Bool
deriving DecidableEq, Repr

/-- `StreamingState::new` (lines 115-125). -/
def SState.new : SState := ⟨[], "", 0, 0, false⟩

/-- State after `StreamingSTT::start` (lines 156-166). -/
def SState.started : SState := ⟨[], "", 0, 0, true⟩

/-- `StreamingSTT::process_chunk` (streaming.rs lines 178-256) for the mono
16 kHz input format: guard on `is_active` and on empty input; preprocess
(here: normalize); extend the queue; enforce the
`max_buffer_duration_secs * 16000` cap by dropping oldest samples; then if
the queue holds at least `chunk_samples = chunk_duration_ms * 16` samples,
take one window, drain `chunk_samples - overlap_samples` (saturating) from
the front, bump `chunks_processed`, transcribe, and emit a single
`Partial` or `Final` event. -/
def processChunk (cfg : Config) (asr : List ℚ → String × ℚ)
    (st : SState) (audio : List ℚ) : Option SEvent × SState :=
  if st.is_active = false then (none, st)
  else if audio = [] then (none, st)
  else
    let processed := AudioPreprocessor.normalize audio
    let buf0 := st.audio_buffer ++ processed
    let total := st.total_samples_processed + processed.length
    let max_samples := cfg.max_buffer_duration_secs * 16000
    let buf1 := if max_samples < buf0.length
      then buf0.drop (buf0.length - max_samples) else buf0
    let chunk_samples := cfg.chunk_duration_ms * 16
    if chunk_samples ≤ buf1.length then
      let chunk := buf1.take chunk_samples
      let overlap_samples := cfg.overlap_ms * 16
      let to_remove := chunk_samples - overlap_samples
      let buf2 := buf1.drop to_remove
      let tr := asr chunk
      let ev := if cfg.enablePartialResults
        then SEvent.Partial tr.1 tr.2 (chunk_samples * 1000 / 16000)
        else SEvent.Final tr.1 tr.2 0 (chunk_samples * 1000 / 16000)
      (some ev, ⟨buf2, tr.1, total, st.chunks_processed + 1, st.is_active⟩)
    else
      (none, ⟨buf1, st.last_transcription, total, st.chunks_processed,
        st.is_active⟩)

/-- Feed a sequence of pushes through `process_chunk`, collecting the
event (or `none`) returned by each call. -/
def feed (cfg : Config) (asr : List ℚ → String × ℚ) :
    SState → List (List ℚ) → List (Option SEvent) × SState
  | st, [] => ([], st)
  | st, a :: rest =>
      let r := processChunk cfg asr st a
      let rr := feed cfg asr r.2 rest
      (r.1 :: rr.1, rr.2)

/-- A fixed abstract transcriber used for the concrete executions below. -/
def asr0 : List ℚ → String × ℚ := fun _ => ("", 1)

theorem processChunk_default_replicate (m n t c : Nat) (s : String)
    (hn : n ≠ 0) (h8 : 8000 ≤ m + n) (hm : m + n ≤ 480000) :
    processChunk Config.default asr0 ⟨List.replicate m (1/2), s, t, c, true⟩
      (List.replicate n (1/2 : ℚ)) =
      (some (SEvent.Partial "" 1 500),
        ⟨List.replicate (m + n - 7200) (1/2), "", t + n, c + 1, true⟩) := by
  have hnil : List.replicate n (1/2 : ℚ) ≠ [] := by
    intro h
    have hlen := congrArg List.length h
    simp only [List.length_replicate, List.length_nil] at hlen
    omega
  have habs : |(1/2 : ℚ)| = 1/2 := by
    rw [abs_of_nonneg]; norm_num
  have hnorm : AudioPreprocessor.normalize (List.replicate n (1/2 : ℚ)) =
      List.replicate n (1/2 : ℚ) := by
    refine AudioPreprocessor.normalize_of_peak_le_one _ ?_
    rw [AudioPreprocessor.peakOf_replicate n (1/2) hn, habs]
    norm_num
  simp only [processChunk, hnorm, ← List.replicate_add, List.length_replicate,
    Config.default]
  rw [if_neg (by simp), if_neg hnil]
  rw [if_neg (show ¬ (30 * 16000 < m + n) by omega)]
  rw [if_pos (show 500 * 16 ≤ (List.replicate (m + n) (1/2 : ℚ)).length by
    rw [List.length_replicate]; omega)]
  have hdrop : (List.replicate (m + n) (1/2 : ℚ)).drop (500 * 16 - 50 * 16) =
      List.replicate (m + n - 7200) (1/2) := by
    rw [List.drop_replicate]
  rw [hdrop]
  have hts : 500 * 16 * 1000 / 16000 = 500 := by norm_num
  rw [hts, if_pos trivial]
  rfl

end Streaming

namespace Detector

/-!
`wakeword-detector/src/detector.rs`.  The analog front-end of the VAD
(`calculate_energy` / `calculate_zero_crossing_rate` against the f32
thresholds, vad.rs lines 118-140) is abstracted as the per-frame classifier
`classify`, and the mock Porcupine detection (`mock_porcupine_process`,
detector.rs lines 297-321, an RMS test combined with a `try_read` of the
already write-locked state) as the predicate `detect` of the frame and the
current `frames_processed` counter.  The state-machine update and the
buffer plumbing are modelled exactly.  The frame loop is written with
explicit fuel: the source loop does not terminate when
`vad_config.frame_size == 0`, a value `VadConfig::validate`
(vad.rs lines 65-69) rejects for every constructed detector; for
`frame_size ≥ 1` a fuel of `buffer length + 1` reaches the loop exit.
-/

/-- The configuration fields of `DetectorConfig` that `process_audio`
reads: the VAD frame size and thresholds and the prefilter switch. -/
structure DConfig where
  frame_size : Nat
  speech_frames_required : Nat
  silence_frames_required : Nat
  enable_vad_prefilter : Bool

/-- `DetectorState` (detector.rs lines 118-124). -/
structure DState where
  audio_buffer : AudioBuffer.Buf
  vad : Vad.Detector
  is_running : Bool
  frames_processed : Nat
  wake_words_detected : Nat
deriving DecidableEq, Repr

/-- `VoiceActivityDetector::process_frame` (vad.rs lines 118-140): fails
when the frame is shorter than `frame_size`; otherwise classifies the
frame, updates the state machine, and returns `is_speech_active`. -/
def vadProcessFrame (cfg : DConfig) (classify : List Int → Bool)
    (d : Vad.Detector) (frame : List Int) :
    Except Unit (Vad.Detector × Bool) :=
  if frame.length < cfg.frame_size then .error ()
  else
    let d' := Vad.update_state cfg.speech_frames_required
      cfg.silence_frames_required d (classify frame)
    .ok (d', Vad.is_speech_active d')

/-- One pass of the `while state.audio_buffer.len() >= frame_size` loop of
`process_audio` (detector.rs lines 209-249), driven by fuel. -/
def detLoop (cfg : DConfig) (classify : List Int → Bool)
    (detect : List Int → Nat → Bool) : Nat → DState → DState
  | 0, st => st
  | fuel + 1, st =>
    if cfg.frame_size ≤ st.audio_buffer.length then
      let frame := AudioBuffer.peek st.audio_buffer cfg.frame_size
      match
        (if cfg.enable_vad_prefilter then
          match vadProcessFrame cfg classify st.vad frame with
          | .ok (vad', active) =>
              if active then (some vad', true) else (some vad', false)
          | .error _ => (none, true)
        else (none, true)) with
      | (vadOpt, should_process) =>
        let vad1 := vadOpt.getD st.vad
        if should_process then
          let wake1 := if detect frame st.frames_processed
            then st.wake_words_detected + 1 else st.wake_words_detected
          detLoop cfg classify detect fuel
            ⟨(AudioBuffer.read st.audio_buffer cfg.frame_size).2, vad1,
              st.is_running, st.frames_processed + 1, wake1⟩
        else
          -- `continue` branch: silent frame is dropped without counting it
          detLoop cfg classify detect fuel
            ⟨(AudioBuffer.read st.audio_buffer cfg.frame_size).2, vad1,
              st.is_running, st.frames_processed, st.wake_words_detected⟩
    else st

/-- The `DetectorError` type (detector.rs lines 14-30); `process_audio`
never constructs one. -/
inductive DetectorError where
  | channelClosed
deriving DecidableEq, Repr

/-- `WakeWordDetector::process_audio` (detector.rs lines 196-252): when the
detector is not running it returns `Ok(())` at once; otherwise it writes
the samples into the 48000-sample ring buffer (`AudioBuffer::new`) and runs
the frame loop. -/
def processAudio (cfg : DConfig) (classify : List Int → Bool)
    (detect : List Int → Nat → Bool) (st : DState) (samples : List Int) :
    Except DetectorError Unit × DState :=
  if st.is_running = false then (.ok (), st)
  else
    let st1 : DState := ⟨(AudioBuffer.write 48000 st.audio_buffer samples).1,
      st.vad, st.is_running, st.frames_processed, st.wake_words_detected⟩
    (.ok (), detLoop cfg classify detect (st1.audio_buffer.length + 1) st1)

end Detector

/-!  ## Claims  -/

/-- Claim C1.  The claim states that after `write(s)` with `|s| >
capacity` the buffer holds the last `capacity` samples of `s`.  The code
does not: on a capacity-3 buffer, `write([1,2,3,4])` first skips the
overflow from the (empty) consumer side — a no-op — and `push_slice` then
appends only the first 3 samples and returns 3, so the buffer holds
`[1,2,3]`, the FIRST 3 samples, not `[2,3,4]`, and `write` reports 3
written, not 4.  This contradicts the function's own documentation
("If buffer is full, oldest samples are overwritten") and the repository's
`test_buffer_overflow`, which asserts `write` returns 150 on a capacity-100
buffer. -/
theorem C1_overflow_keeps_first_samples :
    AudioBuffer.write 3 [] [1, 2, 3, 4] = ([1, 2, 3], 3) ∧
    (AudioBuffer.write 3 [] [1, 2, 3, 4]).1 ≠ [2, 3, 4] := by
  decide

/-- Claim C5.  A write of `N ≤ C` samples into a buffer with
`occupied + N > C` drops exactly `occupied + N - C` oldest samples and then
writes all `N` new ones; concretely on a capacity-10 buffer,
`write [1..10]` then `write [11..15]` leaves `peek 10 =
[6,7,8,9,10,11,12,13,14,15]` and `free_space = 0`. -/
theorem C5_write_partial_overflow (cap : Nat) (b s : List Int)
    (hb : b.length ≤ cap) (hs : s.length ≤ cap)
    (hov : cap < b.length + s.length) :
    AudioBuffer.write cap b s =
      (b.drop (b.length + s.length - cap) ++ s, s.length) ∧
    AudioBuffer.peek
      ((AudioBuffer.write 10
        ((AudioBuffer.write 10 [] [1,2,3,4,5,6,7,8,9,10]).1)
        [11,12,13,14,15]).1) 10 =
      [6,7,8,9,10,11,12,13,14,15] ∧
    AudioBuffer.free_space 10
      ((AudioBuffer.write 10
        ((AudioBuffer.write 10 [] [1,2,3,4,5,6,7,8,9,10]).1)
        [11,12,13,14,15]).1) = 0 := by
  refine ⟨?_, by decide, by decide⟩
  simp only [AudioBuffer.write]
  have hvac : cap - b.length < s.length := by omega
  rw [if_pos hvac]
  have hmin : min (s.length - (cap - b.length)) b.length =
      b.length + s.length - cap := by omega
  rw [hmin]
  have hlen : (b.drop (b.length + s.length - cap)).length =
      cap - s.length := by
    rw [List.length_drop]; omega
  rw [hlen]
  have hpush : min (cap - (cap - s.length)) s.length = s.length := by omega
  rw [hpush, List.take_length]

/-- Witness for C5 at the claim's own concrete scenario: capacity 10,
buffer `[1..10]`, write `[11..15]`. -/
theorem C5_witness :
    ([(1:Int),2,3,4,5,6,7,8,9,10].length ≤ 10 ∧
      [(11:Int),12,13,14,15].length ≤ 10 ∧
      10 < [(1:Int),2,3,4,5,6,7,8,9,10].length +
        [(11:Int),12,13,14,15].length) ∧
    AudioBuffer.write 10 [1,2,3,4,5,6,7,8,9,10] [11,12,13,14,15] =
      ([(1:Int),2,3,4,5,6,7,8,9,10].drop
          ([(1:Int),2,3,4,5,6,7,8,9,10].length +
            [(11:Int),12,13,14,15].length - 10) ++ [11,12,13,14,15], 5) :=
  ⟨⟨by decide, by decide, by decide⟩, by
    have h := (C5_write_partial_overflow 10 [1,2,3,4,5,6,7,8,9,10]
      [11,12,13,14,15] (by decide) (by decide) (by decide)).1
    simpa using h⟩

/-- Claim C7.  `read(n)` fails with `Underflow` exactly when `n` exceeds
the occupied count, leaving the buffer unchanged on failure; otherwise it
returns the `n` oldest samples in FIFO order and removes them. -/
theorem C7_read_underflow (b : List Int) (n : Nat) :
    ((AudioBuffer.read b n).1 =
        .error (.underflow n b.length) ↔ b.length < n) ∧
    (b.length < n →
      AudioBuffer.read b n = (.error (.underflow n b.length), b)) ∧
    (n ≤ b.length →
      AudioBuffer.read b n = (.ok (b.take n), b.drop n)) := by
  unfold AudioBuffer.read
  by_cases h : b.length < n
  · simp [h]
  · simp [h, not_lt.mp h]

/-- Witness for C7: a failing read of 3 from a 2-sample buffer leaves it
unchanged; a read of 1 pops the oldest sample. -/
theorem C7_witness :
    (([(5:Int), 6].length < 3 ∧
        AudioBuffer.read [5, 6] 3 = (.error (.underflow 3 2), [5, 6])) ∧
      (1 ≤ [(5:Int), 6].length ∧
        AudioBuffer.read [5, 6] 1 = (.ok [5], [6]))) :=
  ⟨⟨by decide, by
      have h := (C7_read_underflow [5, 6] 3).2.1 (by decide)
      simpa using h⟩,
    ⟨by decide, by
      have h := (C7_read_underflow [5, 6] 1).2.2 (by decide)
      simpa using h⟩⟩

/-- Claim C8.  At every buffer state reachable by a sequence of `write`,
`read`, `peek`, `clear` operations from the empty buffer,
`len() + free_space() = capacity()`. -/
theorem C8_len_plus_free_eq_cap (cap : Nat) (ops : List AudioBuffer.Op) :
    AudioBuffer.lenB (AudioBuffer.run cap ops) +
      AudioBuffer.free_space cap (AudioBuffer.run cap ops) = cap := by
  have h := AudioBuffer.run_length_le cap ops
  unfold AudioBuffer.lenB AudioBuffer.free_space
  omega

/-- Counterexample to claim C4 as stated ("for every configuration"):
with `speech_frames_required = 1`, one speech-classified frame from
`Silence` leaves the VAD in `MaybeSpeech`, not `Speech` — the
`Silence` arm sets the counter to 1 and moves to `MaybeSpeech` without
comparing against the threshold, so `Speech` is reached only at the second
frame. -/
theorem C4_counterexample :
    (Vad.runFrames 1 10 Vad.Detector.init [true]).state =
      Vad.VadState.maybeSpeech ∧
    (Vad.runFrames 1 10 Vad.Detector.init [true]).state ≠
      Vad.VadState.speech := by
  decide

/-- Claim C4, amended: for every configuration with
`speech_frames_required ≥ 2`, processing that many consecutive
speech-classified frames from `Silence` ends in `Speech`; for
`silence_frames_required ≥ 2`, processing that many consecutive
silence-classified frames from `Speech` ends in `Silence`; and with both
thresholds 2 the trajectory on frames `[speech, speech, silence, silence]`
is `MaybeSpeech, Speech, MaybeSilence, Silence`. -/
theorem C4_state_machine (sreq silreq a b a' b' : Nat)
    (h2 : 2 ≤ sreq) (h2' : 2 ≤ silreq) :
    (Vad.runFrames sreq silreq ⟨.silence, a, b⟩
      (List.replicate sreq true)).state = .speech ∧
    (Vad.runFrames sreq silreq ⟨.speech, a', b'⟩
      (List.replicate silreq false)).state = .silence ∧
    ((Vad.runFrames 2 2 Vad.Detector.init [true]).state =
        Vad.VadState.maybeSpeech ∧
      (Vad.runFrames 2 2 Vad.Detector.init [true, true]).state =
        Vad.VadState.speech ∧
      (Vad.runFrames 2 2 Vad.Detector.init [true, true, false]).state =
        Vad.VadState.maybeSilence ∧
      (Vad.runFrames 2 2 Vad.Detector.init
        [true, true, false, false]).state = Vad.VadState.silence) := by
  refine ⟨?_, ?_, by decide, by decide, by decide, by decide⟩
  · have hrepl : List.replicate sreq true =
        true :: List.replicate (sreq - 1) true := by
      conv_lhs => rw [show sreq = 1 + (sreq - 1) by omega]
      rw [List.replicate_add]
      rfl
    rw [hrepl]
    have hstep : Vad.update_state sreq silreq ⟨.silence, a, b⟩ true =
        ⟨.maybeSpeech, 1, 0⟩ := by
      simp [Vad.update_state]
    have hrun : Vad.runFrames sreq silreq ⟨.silence, a, b⟩
        (true :: List.replicate (sreq - 1) true) =
        Vad.runFrames sreq silreq ⟨.maybeSpeech, 1, 0⟩
          (List.replicate (sreq - 1) true) := by
      simp [Vad.runFrames, hstep]
    rw [hrun]
    exact Vad.runFrames_maybeSpeech_reaches sreq silreq (sreq - 1) 1 0
      (by omega) (by omega)
  · have hrepl : List.replicate silreq false =
        false :: List.replicate (silreq - 1) false := by
      conv_lhs => rw [show silreq = 1 + (silreq - 1) by omega]
      rw [List.replicate_add]
      rfl
    rw [hrepl]
    have hstep : Vad.update_state sreq silreq ⟨.speech, a', b'⟩ false =
        ⟨.maybeSilence, 0, 1⟩ := by
      simp [Vad.update_state]
    have hrun : Vad.runFrames sreq silreq ⟨.speech, a', b'⟩
        (false :: List.replicate (silreq - 1) false) =
        Vad.runFrames sreq silreq ⟨.maybeSilence, 0, 1⟩
          (List.replicate (silreq - 1) false) := by
      simp [Vad.runFrames, hstep]
    rw [hrun]
    exact Vad.runFrames_maybeSilence_reaches sreq silreq (silreq - 1) 1 0
      (by omega) (by omega)

/-- Witness for C4 at the claim's own configuration
`speech_frames_required = silence_frames_required = 2`. -/
theorem C4_witness :
    (2 ≤ 2 ∧
      (Vad.runFrames 2 2 ⟨.silence, 0, 0⟩
        (List.replicate 2 true)).state = .speech ∧
      (Vad.runFrames 2 2 ⟨.speech, 0, 0⟩
        (List.replicate 2 false)).state = .silence) := by
  have h := C4_state_machine 2 2 0 0 0 0 (by decide) (by decide)
  exact ⟨by decide, h.1, h.2.1⟩

/-- Counterexample to claim C3 as stated: the one-sample input `[0.98]` is
non-empty and non-silent (peak `0.98 > 0`), `process` (mono, 16 kHz)
returns it unchanged — `normalize` only rescales when the peak exceeds
1.0 — and its peak `0.98` exceeds the claimed bound `0.95`. -/
theorem C3_counterexample :
    AudioPreprocessor.process 1 16000 id [(49/50 : ℚ)] =
      .ok [(49/50 : ℚ)] ∧
    (0 : ℚ) < AudioPreprocessor.peakOf [(49/50 : ℚ)] ∧
    ¬ AudioPreprocessor.peakOf [(49/50 : ℚ)] ≤ 19/20 := by
  have hpk : AudioPreprocessor.peakOf [(49/50 : ℚ)] = 49/50 := by
    unfold AudioPreprocessor.peakOf
    simp only [List.foldl_cons, List.foldl_nil]
    rw [abs_of_nonneg (by norm_num : (0:ℚ) ≤ 49/50)]
    exact max_eq_right (by norm_num)
  have hnorm : AudioPreprocessor.normalize [(49/50 : ℚ)] = [(49/50 : ℚ)] :=
    AudioPreprocessor.normalize_of_peak_le_one _ (by rw [hpk]; norm_num)
  refine ⟨?_, ?_, ?_⟩
  · simp [AudioPreprocessor.process, hnorm]
  · rw [hpk]; norm_num
  · rw [hpk]; norm_num

/-- Claim C3, amended: the output of `process` is `normalize` of the
(mono, resampled) signal, so its peak never exceeds 1.0; the claimed
0.95 bound holds exactly when the pre-normalization peak exceeds 1.0
(for a peak in (0, 1] the signal is returned unchanged). -/
theorem C3_process_peak_bound (channels rate : Nat)
    (resample : List ℚ → List ℚ) (x y : List ℚ)
    (h : AudioPreprocessor.process channels rate resample x = .ok y) :
    AudioPreprocessor.peakOf y ≤ 1 ∧
    (channels = 1 → rate = 16000 → 1 < AudioPreprocessor.peakOf x →
      AudioPreprocessor.peakOf y ≤ 19/20) := by
  unfold AudioPreprocessor.process at h
  by_cases hx : x = []
  · rw [if_pos hx] at h
    cases h
  · rw [if_neg hx] at h
    constructor
    · have hy : y = AudioPreprocessor.normalize
          (if rate ≠ 16000 then
            resample (if channels = 2 then
              AudioPreprocessor.stereo_to_mono x else x)
          else (if channels = 2 then
            AudioPreprocessor.stereo_to_mono x else x)) := by
        cases h
        rfl
      rw [hy]
      exact AudioPreprocessor.normalize_peak_le_one _
    · intro hch hrate hloud
      subst hch hrate
      simp only [ne_eq, not_true_eq_false, if_neg, ite_false,
        OfNat.ofNat_ne_one, if_false] at h
      have hy : y = AudioPreprocessor.normalize x := by
        have hne : ¬ ((16000 : Nat) ≠ 16000) := by omega
        rw [if_neg (show (1 : Nat) = 2 → False by omega)] at h
        cases h
        rfl
      rw [hy]
      exact AudioPreprocessor.normalize_peak_of_loud x hloud

/-- Witness for C3 (amended) at the loud input `[1.5]`: the normalized
output `[0.95]` meets the bound. -/
theorem C3_witness :
    AudioPreprocessor.process 1 16000 id [(3/2 : ℚ)] =
      .ok [(19/20 : ℚ)] ∧
    AudioPreprocessor.peakOf [(19/20 : ℚ)] ≤ 1 := by
  have hpk2 : AudioPreprocessor.peakOf [(3/2 : ℚ)] = 3/2 := by
    unfold AudioPreprocessor.peakOf
    simp only [List.foldl_cons, List.foldl_nil]
    rw [abs_of_nonneg (by norm_num : (0:ℚ) ≤ 3/2)]
    exact max_eq_right (by norm_num)
  have hnorm2 : AudioPreprocessor.normalize [(3/2 : ℚ)] = [(19/20 : ℚ)] := by
    simp only [AudioPreprocessor.normalize]
    rw [hpk2, if_neg (by norm_num), if_pos (by norm_num)]
    norm_num [List.map_cons, List.map_nil]
  have hp : AudioPreprocessor.process 1 16000 id [(3/2 : ℚ)] =
      .ok [(19/20 : ℚ)] := by
    simp [AudioPreprocessor.process, hnorm2]
  exact ⟨hp, (C3_process_peak_bound 1 16000 id [(3/2 : ℚ)]
    [(19/20 : ℚ)] hp).1⟩

/-- Claim C6.  The i16 → f32 → i16 round trip is within 1 LSB:
`i16_to_f32` divides by `i16::MAX = 32767`, `f32_to_i16` clamps to
`[-1, 1]` and scales back with truncation.  For `-32767 ≤ x ≤ 32767` the
round trip is exact; for `x = -32768` the clamp at `-1` loses exactly one
unit (the result is `-32767`). -/
theorem C6_roundtrip_within_one (x : ℤ)
    (h1 : -32768 ≤ x) (h2 : x ≤ 32767) :
    |AudioPreprocessor.f32_to_i16_sample
      (AudioPreprocessor.i16_to_f32_sample x) - x| ≤ 1 := by
  by_cases hx : x = -32768
  · subst hx
    have hlt : AudioPreprocessor.i16_to_f32_sample (-32768) < -1 := by
      unfold AudioPreprocessor.i16_to_f32_sample
      rw [div_lt_iff₀ (by norm_num : (0:ℚ) < 32767)]
      norm_num
    have hclamp : AudioPreprocessor.clampQ
        (AudioPreprocessor.i16_to_f32_sample (-32768)) (-1) 1 = -1 := by
      unfold AudioPreprocessor.clampQ
      rw [if_pos hlt]
    have htr : AudioPreprocessor.truncQ ((-1) * 32767) = -32767 := by
      unfold AudioPreprocessor.truncQ
      rw [show ((-1 : ℚ) * 32767) = ((-32767 : ℤ) : ℚ) by norm_num]
      rw [if_neg (by norm_num), Int.ceil_intCast]
    have hval : AudioPreprocessor.f32_to_i16_sample
        (AudioPreprocessor.i16_to_f32_sample (-32768)) = -32767 := by
      simp only [AudioPreprocessor.f32_to_i16_sample]
      rw [hclamp, htr]
      rw [min_eq_right (by norm_num : (-32767 : ℤ) ≤ 32767)]
      rw [max_eq_right (by norm_num : (-32768 : ℤ) ≤ -32767)]
    rw [hval]
    norm_num
  · have h1' : -32767 ≤ x := by omega
    have hq1 : (-1 : ℚ) ≤ (x : ℚ) / 32767 := by
      rw [le_div_iff₀ (by norm_num : (0:ℚ) < 32767)]
      have hcast : (-32767 : ℚ) ≤ (x : ℚ) := by exact_mod_cast h1'
      linarith
    have hq2 : (x : ℚ) / 32767 ≤ 1 := by
      rw [div_le_one (by norm_num : (0:ℚ) < 32767)]
      exact_mod_cast h2
    have hclamp : AudioPreprocessor.clampQ ((x : ℚ) / 32767) (-1) 1 =
        (x : ℚ) / 32767 := by
      unfold AudioPreprocessor.clampQ
      rw [if_neg (not_lt.mpr hq1), if_neg (not_lt.mpr hq2)]
    have hmul : ((x : ℚ) / 32767) * 32767 = (x : ℚ) := by
      field_simp
    have htr : AudioPreprocessor.truncQ ((x : ℚ)) = x := by
      unfold AudioPreprocessor.truncQ
      by_cases h0 : (0 : ℚ) ≤ (x : ℚ)
      · rw [if_pos h0, Int.floor_intCast]
      · rw [if_neg h0, Int.ceil_intCast]
    have hval : AudioPreprocessor.f32_to_i16_sample
        (AudioPreprocessor.i16_to_f32_sample x) = x := by
      simp only [AudioPreprocessor.f32_to_i16_sample,
        AudioPreprocessor.i16_to_f32_sample]
      rw [hclamp, hmul, htr]
      rw [min_eq_right h2, max_eq_right h1]
    rw [hval]
    norm_num

/-- Witness for C6 at the extreme input `x = i16::MIN = -32768`. -/
theorem C6_witness :
    (-32768 ≤ (-32768 : ℤ) ∧ (-32768 : ℤ) ≤ 32767) ∧
    |AudioPreprocessor.f32_to_i16_sample
      (AudioPreprocessor.i16_to_f32_sample (-32768)) - (-32768)| ≤ 1 :=
  ⟨⟨by decide, by decide⟩,
    C6_roundtrip_within_one (-32768) (by decide) (by decide)⟩

/-- Counterexample to claim C9 as stated: `i16_to_f32` performs no
clamping — it is a bare division by `i16::MAX = 32767` — so `i16::MIN =
-32768` maps to `-32768/32767 ≈ -1.00003`, strictly below `-1.0`, not to
`-1.0` exactly. -/
theorem C9_counterexample :
    AudioPreprocessor.i16_to_f32_sample (-32768) ≠ -1 := by
  unfold AudioPreprocessor.i16_to_f32_sample
  intro h
  have h2 : ((-32768 : ℤ) : ℚ) = -1 * 32767 := by
    rw [div_eq_iff (by norm_num : (32767:ℚ) ≠ 0)] at h
    exact_mod_cast h
  norm_num at h2

/-- Claim C9, amended: `i16_to_f32` maps `i16::MAX = 32767` to exactly
`1.0`, and maps `i16::MIN = -32768` to `-32768/32767 < -1.0` (there is no
clamp in the conversion; only `f32_to_i16` clamps). -/
theorem C9_extreme_values :
    AudioPreprocessor.i16_to_f32_sample 32767 = 1 ∧
    AudioPreprocessor.i16_to_f32_sample (-32768) = -32768/32767 ∧
    AudioPreprocessor.i16_to_f32_sample (-32768) < -1 := by
  unfold AudioPreprocessor.i16_to_f32_sample
  refine ⟨by norm_num, by norm_num, ?_⟩
  rw [div_lt_iff₀ (by norm_num : (0:ℚ) < 32767)]
  norm_num

/-- Counterexample to claim C2 as stated: `process_chunk` runs an `if`,
not a `while` — it emits at most one event per call.  Feeding the 3 s of
audio (48000 preprocessed samples) in a single call from a freshly started
active session with partial results enabled produces exactly ONE `Partial`
event (not 6), leaves `chunks_processed = 1`, and leaves 40800 ≥ 8000
samples queued without processing further windows. -/
theorem C2_counterexample :
    Streaming.feed Streaming.Config.default Streaming.asr0
      Streaming.SState.started [List.replicate 48000 (1/2 : ℚ)] =
      ([some (Streaming.SEvent.Partial "" 1 500)],
        ⟨List.replicate 40800 (1/2), "", 48000, 1, true⟩) ∧
    8000 ≤ (List.replicate 40800 (1/2 : ℚ)).length ∧
    (1 : Nat) ≠ 6 := by
  have h' : Streaming.processChunk Streaming.Config.default Streaming.asr0
      Streaming.SState.started (List.replicate 48000 (1/2 : ℚ)) =
      (some (Streaming.SEvent.Partial "" 1 500),
        ⟨List.replicate 40800 (1/2), "", 48000, 1, true⟩) :=
    Streaming.processChunk_default_replicate 0 48000 0 0 ""
      (by omega) (by omega) (by omega)
  refine ⟨?_, by rw [List.length_replicate]; omega, by omega⟩
  simp only [Streaming.feed, h']

/-- Claim C2, amended: each `process_chunk` call with the default config
(chunk 500 ms = 8000 samples, overlap 50 ms = 800 samples at 16 kHz) on an
active session emits at most one event per call; whenever the queue
reaches ≥ 8000 samples it emits exactly one `Partial` event and advances
the queue by 8000 − 800 = 7200 samples.  Feeding 3 s of audio as six
8000-sample pushes therefore produces exactly 6 `Partial` events; the
claimed 6 events do NOT arise from a single 48000-sample call, which
yields only one. -/
theorem C2_chunked_streaming (m n t c : Nat) (s : String) (hn : n ≠ 0)
    (h8 : 8000 ≤ m + n) (hm : m + n ≤ 480000) :
    Streaming.processChunk Streaming.Config.default Streaming.asr0
      ⟨List.replicate m (1/2), s, t, c, true⟩
      (List.replicate n (1/2 : ℚ)) =
      (some (Streaming.SEvent.Partial "" 1 500),
        ⟨List.replicate (m + n - 7200) (1/2), "", t + n, c + 1, true⟩) ∧
    Streaming.feed Streaming.Config.default Streaming.asr0
      Streaming.SState.started
      (List.replicate 6 (List.replicate 8000 (1/2 : ℚ))) =
      (List.replicate 6 (some (Streaming.SEvent.Partial "" 1 500)),
        ⟨List.replicate 4800 (1/2), "", 48000, 6, true⟩) := by
  constructor
  · exact Streaming.processChunk_default_replicate m n t c s hn h8 hm
  · have e0 : Streaming.processChunk Streaming.Config.default
        Streaming.asr0 Streaming.SState.started
        (List.replicate 8000 (1/2 : ℚ)) =
        (some (Streaming.SEvent.Partial "" 1 500),
          ⟨List.replicate 800 (1/2), "", 8000, 1, true⟩) :=
      Streaming.processChunk_default_replicate 0 8000 0 0 ""
        (by omega) (by omega) (by omega)
    have e1 : Streaming.processChunk Streaming.Config.default
        Streaming.asr0 ⟨List.replicate 800 (1/2), "", 8000, 1, true⟩
        (List.replicate 8000 (1/2 : ℚ)) =
        (some (Streaming.SEvent.Partial "" 1 500),
          ⟨List.replicate 1600 (1/2), "", 16000, 2, true⟩) :=
      Streaming.processChunk_default_replicate 800 8000 8000 1 ""
        (by omega) (by omega) (by omega)
    have e2 : Streaming.processChunk Streaming.Config.default
        Streaming.asr0 ⟨List.replicate 1600 (1/2), "", 16000, 2, true⟩
        (List.replicate 8000 (1/2 : ℚ)) =
        (some (Streaming.SEvent.Partial "" 1 500),
          ⟨List.replicate 2400 (1/2), "", 24000, 3, true⟩) :=
      Streaming.processChunk_default_replicate 1600 8000 16000 2 ""
        (by omega) (by omega) (by omega)
    have e3 : Streaming.processChunk Streaming.Config.default
        Streaming.asr0 ⟨List.replicate 2400 (1/2), "", 24000, 3, true⟩
        (List.replicate 8000 (1/2 : ℚ)) =
        (some (Streaming.SEvent.Partial "" 1 500),
          ⟨List.replicate 3200 (1/2), "", 32000, 4, true⟩) :=
      Streaming.processChunk_default_replicate 2400 8000 24000 3 ""
        (by omega) (by omega) (by omega)
    have e4 : Streaming.processChunk Streaming.Config.default
        Streaming.asr0 ⟨List.replicate 3200 (1/2), "", 32000, 4, true⟩
        (List.replicate 8000 (1/2 : ℚ)) =
        (some (Streaming.SEvent.Partial "" 1 500),
          ⟨List.replicate 4000 (1/2), "", 40000, 5, true⟩) :=
      Streaming.processChunk_default_replicate 3200 8000 32000 4 ""
        (by omega) (by omega) (by omega)
    have e5 : Streaming.processChunk Streaming.Config.default
        Streaming.asr0 ⟨List.replicate 4000 (1/2), "", 40000, 5, true⟩
        (List.replicate 8000 (1/2 : ℚ)) =
        (some (Streaming.SEvent.Partial "" 1 500),
          ⟨List.replicate 4800 (1/2), "", 48000, 6, true⟩) :=
      Streaming.processChunk_default_replicate 4000 8000 40000 5 ""
        (by omega) (by omega) (by omega)
    show Streaming.feed Streaming.Config.default Streaming.asr0
      Streaming.SState.started
      [List.replicate 8000 (1/2 : ℚ), List.replicate 8000 (1/2),
        List.replicate 8000 (1/2), List.replicate 8000 (1/2),
        List.replicate 8000 (1/2), List.replicate 8000 (1/2)] =
      ([some (Streaming.SEvent.Partial "" 1 500),
        some (Streaming.SEvent.Partial "" 1 500),
        some (Streaming.SEvent.Partial "" 1 500),
        some (Streaming.SEvent.Partial "" 1 500),
        some (Streaming.SEvent.Partial "" 1 500),
        some (Streaming.SEvent.Partial "" 1 500)],
        ⟨List.replicate 4800 (1/2), "", 48000, 6, true⟩)
    simp only [Streaming.feed, e0, e1, e2, e3, e4, e5]

/-- Witness for C2 (amended) at the first push: from the freshly started
session the 8000-sample push yields one `Partial` event and a residual
queue of 800 samples. -/
theorem C2_witness :
    ((8000 : Nat) ≠ 0 ∧ 8000 ≤ 0 + 8000 ∧ 0 + 8000 ≤ 480000) ∧
    Streaming.processChunk Streaming.Config.default Streaming.asr0
      ⟨List.replicate 0 (1/2), "", 0, 0, true⟩
      (List.replicate 8000 (1/2 : ℚ)) =
      (some (Streaming.SEvent.Partial "" 1 500),
        ⟨List.replicate (0 + 8000 - 7200) (1/2), "", 0 + 8000, 0 + 1,
          true⟩) :=
  ⟨⟨by omega, by omega, by omega⟩,
    (C2_chunked_streaming 0 8000 0 0 "" (by omega) (by omega)
      (by omega)).1⟩

/-- Claim C10.  When the detector is not running, `process_audio` returns
`Ok(())` immediately and the whole detector state — ring buffer, VAD state
and counters, `frames_processed`, `wake_words_detected` — is unchanged:
the input is discarded, not buffered. -/
theorem C10_not_running_noop (cfg : Detector.DConfig)
    (classify : List Int → Bool) (detect : List Int → Nat → Bool)
    (st : Detector.DState) (samples : List Int)
    (h : st.is_running = false) :
    Detector.processAudio cfg classify detect st samples = (.ok (), st) := by
  unfold Detector.processAudio
  rw [if_pos h]

/-- Witness for C10: a stopped detector with a non-trivial state and
non-empty input is left exactly as it was. -/
theorem C10_witness :
    (⟨[1, 2, 3], Vad.Detector.init, false, 5, 7⟩ :
        Detector.DState).is_running = false ∧
    Detector.processAudio ⟨480, 3, 10, true⟩ (fun _ => true)
      (fun _ _ => false) ⟨[1, 2, 3], Vad.Detector.init, false, 5, 7⟩
      [9, 9] =
      (.ok (), ⟨[1, 2, 3], Vad.Detector.init, false, 5, 7⟩) :=
  ⟨rfl, C10_not_running_noop ⟨480, 3, 10, true⟩ (fun _ => true)
    (fun _ _ => false) ⟨[1, 2, 3], Vad.Detector.init, false, 5, 7⟩
    [9, 9] rfl⟩
